import Mathlib

/-!
Verification of the WhatsApp web service (`src/index.js`) against its
natural-language specification.  The relevant JavaScript is shallowly
embedded below: module-level mutable state becomes an explicit
`SessionState`, adapter event handlers become state-transition functions,
Express route handlers become pure functions from state and request to a
response (and, where ordering of I/O matters, a trace of actions), and the
inline regular expressions become executable Lean functions on character
lists.  Definitions come first, theorems after.
-/

namespace WaService

/-- Default of the `GROUP_NAME` environment variable (index.js line 225). -/
def defaultGroupName : String := "WEB CUNGS"

/-- Default of the `API_ENDPOINT` environment variable (index.js lines 226-227). -/
def defaultApiEndpoint : String := "http://localhost:8000/api/orders/mark-as-done"

/-- JavaScript truthiness of a nullable string variable (`if (x)`,
`Boolean(x)`): `null`/`undefined` and the empty string are falsy. -/
def jsTruthy : Option String → Bool
  | none => false
  | some s => !(s == "")

/-- JavaScript `a || b` for a nullable string `a` and string `b`
(index.js line 326: `msg.author || msg.from`). -/
def jsOrStr (a : Option String) (b : String) : String :=
  match a with
  | some s => if s == "" then b else s
  | none => b

/-! ## Order Extractor

index.js line 317: `const match = msg.body.match(/[dD]\/(\d+)/);` followed by
`const orderId = match[1];`.  The JavaScript regex engine scans for the
leftmost position where the pattern matches; the greedy `\d+` then captures
the maximal run of digits after the slash. -/

/-- Longest digit run at the head of the list, i.e. what the greedy `\d+`
captures. -/
def takeDigits : List Char → List Char
  | [] => []
  | c :: cs => if c.isDigit then c :: takeDigits cs else []

/-- Does `/[dD]\/\d/` match at the very start of the list?  (One digit at the
head of the digit run suffices: `\d+` needs at least one digit.) -/
def headPattern : List Char → Bool
  | c :: '/' :: d :: _ => (c == 'd' || c == 'D') && d.isDigit
  | _ => false

/-- Does the pattern match starting at position `i`? -/
def patternAt : List Char → Nat → Bool
  | l, 0 => headPattern l
  | [], _ + 1 => false
  | _ :: rest, i + 1 => patternAt rest i

/-- Leftmost-match scan of `/[dD]\/(\d+)/`: the JS engine tries each start
position left to right and, on the first hit, returns the greedy digit
capture. -/
def matchOrderAux : List Char → Option (List Char)
  | [] => none
  | c :: rest =>
      if headPattern (c :: rest) then some (takeDigits (rest.drop 1))
      else matchOrderAux rest

/-- The Order Extractor: `msg.body.match(/[dD]\/(\d+)/)`, returning the first
capture group (`match[1]`) when the regex matches and `none` when it does not
(index.js lines 317-320). -/
def extractOrderId (body : String) : Option String :=
  (matchOrderAux body.toList).map fun ds => String.mk ds

/-! ## Session state and adapter events

index.js lines 230-233: module-level mutable variables `latestQR`,
`clientReady`, `groupChatInstance`, `cachedGroupId`. -/

/-- A chat object as consumed from the adapter's `getChats()` result:
`{name, id._serialized, isGroup}` (spec §6). -/
structure ChatObj where
  name : String
  idSerialized : String
  isGroup : Bool
deriving DecidableEq, Repr

/-- The module-level mutable session variables of index.js lines 230-233. -/
structure SessionState where
  latestQR : Option String
  clientReady : Bool
  groupChatInstance : Option ChatObj
  cachedGroupId : Option String
deriving DecidableEq, Repr

/-- Process start: all four variables are `null`/`false`. -/
def initialState : SessionState :=
  { latestQR := none, clientReady := false,
    groupChatInstance := none, cachedGroupId := none }

/-- Adapter events the service subscribes to.  The `ready` event carries the
outcome of the `client.getChats()` call performed inside its handler (the
call can also throw, hence `Except`). -/
inductive WAEvent where
  | qr (payload : String)
  | ready (chats : Except String (List ChatObj))
  | authFailure (reason : String)
  | disconnected (reason : String)
deriving Repr

/-- Side effects the event handlers request from the adapter. -/
inductive AdapterAction where
  | notifyGroupMsg (chat : ChatObj) (text : String)
  | clientDestroy
  | clientInit
  | scheduleReconnect (delayMs : Nat)
deriving DecidableEq, Repr

/-- `qrcode` package `toDataURL` — an external collaborator (spec §6).  It
renders a QR payload as a base64 `data:` URL; the service only stores the
returned (always nonempty) string, so we model it as the data-URL header
followed by the payload. -/
def toDataURL (qr : String) : String := "data:image/png;base64," ++ qr

/-- `notifyGroup(text)` helper (index.js lines 396-402): best-effort send to
the cached group chat instance; nothing happens when none is cached. -/
def notifyGroup (st : SessionState) (text : String) : List AdapterAction :=
  match st.groupChatInstance with
  | some g => [AdapterAction.notifyGroupMsg g text]
  | none => []

/-- One adapter event handled against the session state, returning the new
state and the adapter actions issued (index.js lines 242-282):
* `qr`: store the rendered QR (line 243);
* `ready`: set `clientReady`, then look the configured group up in
  `getChats()` and cache instance and id when found (lines 247-264);
* `auth_failure`: set `clientReady = false`, notify the cached group,
  destroy and re-init the client (lines 266-272);
* `disconnected`: set `clientReady = false`, notify the cached group,
  schedule destroy+re-init after 5000 ms (lines 274-282). -/
def handleEvent (groupName : String) (st : SessionState) (e : WAEvent) :
    SessionState × List AdapterAction :=
  match e with
  | WAEvent.qr payload => ({ st with latestQR := some (toDataURL payload) }, [])
  | WAEvent.ready chats =>
      let st1 := { st with clientReady := true }
      match chats with
      | Except.ok cs =>
          match cs.find? (fun c => c.name == groupName) with
          | some g =>
              ({ st1 with groupChatInstance := some g,
                          cachedGroupId := some g.idSerialized }, [])
          | none => (st1, [])
      | Except.error _ => (st1, [])
  | WAEvent.authFailure _ =>
      ({ st with clientReady := false },
        notifyGroup st "⚠️ Sesi WhatsApp berakhir. Silakan scan ulang QR Code." ++
          [AdapterAction.clientDestroy, AdapterAction.clientInit])
  | WAEvent.disconnected _ =>
      ({ st with clientReady := false },
        notifyGroup st "⚠️ WhatsApp terputus. Mencoba menyambung kembali..." ++
          [AdapterAction.scheduleReconnect 5000])

/-- Fold a sequence of adapter events over the session state. -/
def processEvents (groupName : String) (st : SessionState) (es : List WAEvent) :
    SessionState :=
  es.foldl (fun s e => (handleEvent groupName s e).1) st

/-! ## GET /status and GET /qr -/

/-- Body of the `GET /status` JSON response (index.js lines 301-307); the
`info` field mirrors `client.info`, which is adapter-owned and not part of
the session state, so it is omitted here. -/
structure StatusResp where
  ready : Bool
  groupCached : Bool
deriving DecidableEq, Repr

/-- `GET /status` (index.js lines 301-307): `ready: clientReady`,
`groupCached: Boolean(cachedGroupId)`. -/
def statusRoute (st : SessionState) : StatusResp :=
  { ready := st.clientReady, groupCached := jsTruthy st.cachedGroupId }

/-- The two possible `GET /qr` responses. -/
inductive QrResp where
  | notAvailable (text : String)
  | htmlPage (img : String)
deriving DecidableEq, Repr

/-- `GET /qr` (index.js lines 285-295): `if (!latestQR)` return the
plain-text message, otherwise the HTML page embedding the cached image. -/
def qrRoute (st : SessionState) : QrResp :=
  if jsTruthy st.latestQR then QrResp.htmlPage (st.latestQR.getD "")
  else QrResp.notAvailable "QR belum tersedia"

/-! ## Incoming message handler (index.js lines 310-343) -/

/-- The fields of an inbound adapter message the handler reads. -/
structure Msg where
  fromMe : Bool
  body : String
  author : Option String
  msgFrom : String
  timestamp : Nat
deriving DecidableEq, Repr

/-- The JSON payload posted to the order API (index.js lines 323-329). -/
structure OrderPayload where
  order_id : String
  group : String
  sender : String
  message : String
  timestamp : Nat
deriving DecidableEq, Repr

/-- Observable effects of one run of the incoming-message handler. -/
inductive MsgEffect where
  | apiPost (endpoint : String) (payload : OrderPayload)
  | chatSend (chat : ChatObj) (text : String)
  | logApiError
deriving DecidableEq, Repr

/-- `true` exactly on `apiPost` effects. -/
def MsgEffect.isApiPost : MsgEffect → Bool
  | MsgEffect.apiPost _ _ => true
  | _ => false

/-- `true` exactly on `chatSend` effects. -/
def MsgEffect.isChatSend : MsgEffect → Bool
  | MsgEffect.chatSend _ _ => true
  | _ => false

/-- The `client.on("message")` handler (index.js lines 310-343).  `chat` is
the result of `msg.getChat()`; `postOk` says whether the `axios.post` to the
order API resolved with a 2xx status.  The handler returns the list of
effects it performs, in order; the surrounding try/catch means no branch
throws to the caller. -/
def handleIncoming (groupName apiEndpoint : String) (msg : Msg) (chat : ChatObj)
    (postOk : Bool) : List MsgEffect :=
  if msg.fromMe then []
  else if !(chat.isGroup && chat.name == groupName) then []
  else
    match extractOrderId msg.body with
    | none => []
    | some orderId =>
        let payload : OrderPayload :=
          { order_id := orderId, group := groupName,
            sender := jsOrStr msg.author msg.msgFrom,
            message := msg.body, timestamp := msg.timestamp }
        if postOk then
          [MsgEffect.apiPost apiEndpoint payload,
           MsgEffect.chatSend chat ("✅ Order ID " ++ orderId ++ " telah diproses.")]
        else
          [MsgEffect.apiPost apiEndpoint payload, MsgEffect.logApiError]

/-! ## POST /send-message (index.js lines 346-393) -/

/-- The request body fields the route reads (absent JSON keys are `none`). -/
structure SendBody where
  number : Option String
  groupTitle : Option String
  message : Option String
deriving DecidableEq, Repr

/-- The Joi regex `^\+?\d+$` on `number` (index.js lines 347-349): an
optional leading `+` followed by one or more digits, anchored both ends. -/
def numberPatternOk (s : String) : Bool :=
  match s.toList with
  | [] => false
  | c :: rest =>
      if c == '+' then !rest.isEmpty && rest.all Char.isDigit
      else c.isDigit && rest.all Char.isDigit

/-- The `msgSchema` Joi object (index.js lines 346-352): `number` optional
matching `^\+?\d+$`, `groupTitle` optional nonempty string, `message`
required with `min(1)`, and `.xor("number", "groupTitle")` requiring exactly
one of the two. -/
def msgSchemaValid (b : SendBody) : Bool :=
  (match b.message with
   | some m => decide (1 ≤ m.length)
   | none => false) &&
  (match b.number, b.groupTitle with
   | some n, none => numberPatternOk n
   | none, some g => decide (1 ≤ g.length)
   | _, _ => false)

/-- `number.replace(/\D/g, "")` (index.js line 370). -/
def stripNonDigits (s : String) : String :=
  String.mk (s.toList.filter Char.isDigit)

/-- `toLowerCase()` as used for the case-insensitive group-title comparison
(index.js line 373): lower-case every character. -/
def lowerStr (s : String) : String := String.mk (s.toList.map Char.toLower)

/-- Observable actions of one run of the send-message route, in order. -/
inductive SendAction where
  | respond (status : Nat) (toField : Option String)
  | dispatch (chatId : String) (text : String)
  | chatListLookup
  | logSendOk (chatId : String)
  | logSendFail (chatId : String)
deriving DecidableEq, Repr

/-- `true` exactly on `dispatch` actions. -/
def SendAction.isDispatch : SendAction → Bool
  | SendAction.dispatch _ _ => true
  | _ => false

/-- The HTTP responses found in an action trace (status, `to` field). -/
def responsesOf (t : List SendAction) : List (Nat × Option String) :=
  t.filterMap fun a =>
    match a with
    | SendAction.respond s f => some (s, f)
    | _ => none

/-- Shared tail of both resolution branches (index.js lines 386-392):
`res.json({success: true, to: chatId, ...})` first, then
`await client.sendMessage(chatId, message)`, whose failure is only logged. -/
def respondThenSend (chatId text : String) (dispatchOk : Bool) : List SendAction :=
  SendAction.respond 200 (some chatId) :: SendAction.dispatch chatId text ::
    (if dispatchOk then [SendAction.logSendOk chatId]
     else [SendAction.logSendFail chatId])

/-- The `POST /send-message` handler (index.js lines 354-393).  `dispatchOk`
says whether the awaited `client.sendMessage` resolved.  Order of checks in
the source: Joi validation (400), readiness (503), then target resolution —
`if (number)` builds `<digits>@c.us`, else the group branch succeeds only
when `groupTitle` equals the configured group name case-insensitively and
`cachedGroupId` is truthy (404 otherwise); no `getChats` lookup occurs. -/
def sendMessageRoute (groupName : String) (st : SessionState) (b : SendBody)
    (dispatchOk : Bool) : List SendAction :=
  if !(msgSchemaValid b) then [SendAction.respond 400 none]
  else if !st.clientReady then [SendAction.respond 503 none]
  else
    let message := (b.message).getD ""
    if jsTruthy b.number then
      respondThenSend (stripNonDigits ((b.number).getD "") ++ "@c.us") message dispatchOk
    else if (match b.groupTitle with
             | some g => lowerStr g == lowerStr groupName
             | none => false) && jsTruthy st.cachedGroupId then
      respondThenSend ((st.cachedGroupId).getD "") message dispatchOk
    else
      [SendAction.respond 404 none]

/-- The `chatId` local of the route (index.js lines 366-376): from `number`
when it is truthy, otherwise the cached group id. -/
def resolvedTarget (st : SessionState) (b : SendBody) : String :=
  if jsTruthy b.number then stripNonDigits ((b.number).getD "") ++ "@c.us"
  else (st.cachedGroupId).getD ""

/-! ## Spec-side formulations (written from the specification's words, for
comparison against the embedded code) -/

/-- Spec wording of the `number` format: "matches `^\+?\d+$`", i.e. a
nonempty digit sequence, optionally preceded by a single `+`. -/
def specNumberOk (n : String) : Prop :=
  ∃ ds : List Char, ds ≠ [] ∧ (∀ c ∈ ds, c.isDigit) ∧
    (n.toList = ds ∨ n.toList = '+' :: ds)

/-- Spec wording of body validity (§4.5): "exactly one of `number` (matches
`^\+?\d+$`) or `groupTitle` (non-empty string) is present, plus a required
non-empty `message`". -/
def specValidBody (b : SendBody) : Prop :=
  (∃ m, b.message = some m ∧ m ≠ "") ∧
  ((∃ n, b.number = some n ∧ specNumberOk n ∧ b.groupTitle = none) ∨
   (∃ g, b.groupTitle = some g ∧ g ≠ "" ∧ b.number = none))

/-! ## Extractor lemmas -/

theorem takeDigits_all_digit : ∀ l : List Char, ∀ c ∈ takeDigits l, c.isDigit := by
  intro l
  induction l with
  | nil => intro c hc; simp [takeDigits] at hc
  | cons a as ih =>
      intro c hc
      by_cases ha : a.isDigit
      · simp [takeDigits, ha] at hc
        rcases hc with h | h
        · exact h ▸ ha
        · exact ih c h
      · simp [takeDigits, ha] at hc

theorem takeDigits_ne_nil {d : Char} {l : List Char} (hd : d.isDigit) :
    takeDigits (d :: l) ≠ [] := by
  simp [takeDigits, hd]

theorem matchOrderAux_none :
    ∀ l : List Char, matchOrderAux l = none ↔ ∀ i, patternAt l i = false := by
  intro l
  induction l with
  | nil =>
      constructor
      · intro _ i
        cases i with
        | zero => rfl
        | succ n => rfl
      · intro _; rfl
  | cons c rest ih =>
      constructor
      · intro h i
        unfold matchOrderAux at h
        by_cases hp : headPattern (c :: rest) = true
        · simp [hp] at h
        · cases i with
          | zero =>
              simpa [patternAt] using hp
          | succ n =>
              have hrest : matchOrderAux rest = none := by
                simpa [hp] using h
              exact (ih.mp hrest) n
      · intro h
        unfold matchOrderAux
        have h0 : headPattern (c :: rest) = false := h 0
        simp [h0]
        exact ih.mpr fun i => h (i + 1)

theorem matchOrderAux_some :
    ∀ l : List Char, ∀ r : List Char, matchOrderAux l = some r →
      ∃ i, patternAt l i = true ∧ (∀ j, j < i → patternAt l j = false) ∧
        r = takeDigits (l.drop (i + 2)) := by
  intro l
  induction l with
  | nil => intro r h; simp [matchOrderAux] at h
  | cons c rest ih =>
      intro r h
      unfold matchOrderAux at h
      by_cases hp : headPattern (c :: rest) = true
      · refine ⟨0, ?_, ?_, ?_⟩
        · simpa [patternAt] using hp
        · intro j hj; omega
        · have : some (takeDigits (rest.drop 1)) = some r := by simpa [hp] using h
          have hr := Option.some.inj this
          simpa [List.drop] using hr.symm
      · have hrest : matchOrderAux rest = some r := by simpa [hp] using h
        obtain ⟨i, hi, hlt, hr⟩ := ih r hrest
        refine ⟨i + 1, ?_, ?_, ?_⟩
        · simpa [patternAt] using hi
        · intro j hj
          cases j with
          | zero => simpa [patternAt] using hp
          | succ k =>
              have : k < i := by omega
              simpa [patternAt] using hlt k this
        · simpa [List.drop] using hr

theorem patternAt_drop_head {l : List Char} {i : Nat} (h : patternAt l i = true) :
    ∃ d ds, l.drop (i + 2) = d :: ds ∧ d.isDigit := by
  induction l generalizing i with
  | nil =>
      cases i with
      | zero => simp [patternAt, headPattern] at h
      | succ n => simp [patternAt] at h
  | cons c rest ih =>
      cases i with
      | zero =>
          simp only [patternAt] at h
          unfold headPattern at h
          split at h
          · rename_i x d tail heq
            cases heq
            simp only [Bool.and_eq_true] at h
            exact ⟨d, tail, by simp, h.2⟩
          · cases h
      | succ n =>
          have h' : patternAt rest n = true := by simpa [patternAt] using h
          obtain ⟨d, ds, hdrop, hd⟩ := ih h'
          exact ⟨d, ds, by simpa [List.drop] using hdrop, hd⟩

/-- C1: for every raw message text, the Order Extractor returns the greedy
digit capture of the leftmost occurrence of `[dD]/<digits>` when one exists
— a nonempty string of digits — and returns no match exactly when no
position of the text matches the pattern. -/
theorem orderExtractor_spec (body : String) :
    (∀ r, extractOrderId body = some r →
        r ≠ "" ∧ (∀ c ∈ r.toList, c.isDigit) ∧
        ∃ i, patternAt body.toList i = true ∧
          (∀ j, j < i → patternAt body.toList j = false) ∧
          r.toList = takeDigits (body.toList.drop (i + 2)))
    ∧ (extractOrderId body = none ↔ ∀ i, patternAt body.toList i = false) := by
  constructor
  · intro r hr
    unfold extractOrderId at hr
    obtain ⟨ds, hds, hmk⟩ := Option.map_eq_some'.mp hr
    obtain ⟨i, hi, hfirst, hdrop⟩ := matchOrderAux_some body.toList ds hds
    have hlist : r.toList = ds := by
      rw [← hmk]
      rfl
    obtain ⟨d, tail, heq, hd⟩ := patternAt_drop_head hi
    have hne : ds ≠ [] := by
      rw [hdrop, heq]
      exact takeDigits_ne_nil hd
    refine ⟨?_, ?_, i, hi, hfirst, by rw [hlist, hdrop]⟩
    · intro hemp
      apply hne
      rw [← hlist, hemp]
      rfl
    · intro c hc
      rw [hlist, hdrop] at hc
      exact takeDigits_all_digit _ c hc
  · unfold extractOrderId
    rw [Option.map_eq_none']
    exact matchOrderAux_none body.toList

/-- Witness for C1 at `"Please confirm d/482 thanks"`, whose extraction is
`some "482"`. -/
theorem orderExtractor_spec_witness :
    "482" ≠ "" ∧ (∀ c ∈ "482".toList, c.isDigit) ∧
    ∃ i, patternAt (String.toList "Please confirm d/482 thanks") i = true ∧
      (∀ j, j < i → patternAt (String.toList "Please confirm d/482 thanks") j = false) ∧
      "482".toList = takeDigits ((String.toList "Please confirm d/482 thanks").drop (i + 2)) :=
  (orderExtractor_spec "Please confirm d/482 thanks").1 "482" (by decide)

/-! ## Session-state lemmas (disconnect handling, QR persistence) -/

/-- C2 counterexample: cache the group via a `ready` event, then handle a
`disconnected` event; `GET /status` reports `ready: false` but
`groupCached: true` — the handlers never clear `cachedGroupId`, so the
claimed joint invalidation does not happen. -/
theorem disconnected_status_cex :
    statusRoute (processEvents "WEB CUNGS" initialState
      [WAEvent.ready (Except.ok [⟨"WEB CUNGS", "123@g.us", true⟩]),
       WAEvent.disconnected "NAVIGATION"])
      = { ready := false, groupCached := true } := by decide

/-- C2 (amended): the `disconnected` and `auth_failure` handlers set the
readiness flag to `false` but leave the cached group id (and instance)
untouched; hence after a `disconnected` event `GET /status` reports
`ready: false` while `groupCached` keeps its previous value. -/
theorem disconnected_clears_ready_only (groupName reason : String) (st : SessionState) :
    (handleEvent groupName st (WAEvent.disconnected reason)).1.clientReady = false ∧
    (handleEvent groupName st (WAEvent.authFailure reason)).1.clientReady = false ∧
    (handleEvent groupName st (WAEvent.disconnected reason)).1.cachedGroupId
        = st.cachedGroupId ∧
    (handleEvent groupName st (WAEvent.authFailure reason)).1.cachedGroupId
        = st.cachedGroupId ∧
    (handleEvent groupName st (WAEvent.disconnected reason)).1.groupChatInstance
        = st.groupChatInstance ∧
    statusRoute (handleEvent groupName st (WAEvent.disconnected reason)).1
        = { ready := false, groupCached := jsTruthy st.cachedGroupId } :=
  ⟨rfl, rfl, rfl, rfl, rfl, rfl⟩

theorem latestQR_preserved_no_qr (groupName : String) :
    ∀ es : List WAEvent, ∀ st : SessionState, (∀ q, WAEvent.qr q ∉ es) →
      (processEvents groupName st es).latestQR = st.latestQR := by
  intro es
  induction es with
  | nil => intro st _; rfl
  | cons e rest ih =>
      intro st h
      have hrest : ∀ q, WAEvent.qr q ∉ rest := by
        intro q hq
        exact h q (List.mem_cons_of_mem e hq)
      have hstep : ((handleEvent groupName st e).1).latestQR = st.latestQR := by
        cases e with
        | qr p => exact absurd (List.mem_cons_self _ _) (h p)
        | ready chats =>
            cases chats with
            | ok cs =>
                cases hfind : cs.find? (fun c => c.name == groupName) with
                | some g => simp [handleEvent, hfind]
                | none => simp [handleEvent, hfind]
            | error _ => rfl
        | authFailure r => rfl
        | disconnected r => rfl
      calc (processEvents groupName st (e :: rest)).latestQR
          = (processEvents groupName ((handleEvent groupName st e).1) rest).latestQR := rfl
        _ = ((handleEvent groupName st e).1).latestQR := ih _ hrest
        _ = st.latestQR := hstep

theorem toDataURL_ne_empty (p : String) : toDataURL p ≠ "" := by
  intro hcontra
  have hdata : (toDataURL p).data = "".data := congrArg String.data hcontra
  simp [toDataURL, String.append] at hdata

/-- C10: handling a `qr` event caches a rendered image that no later event
(`ready`, `auth_failure`, `disconnected`) ever resets; after the last `qr`
event of any event sequence, `GET /qr` returns the HTML page embedding that
most recent image and never the "not yet available" text. -/
theorem qrRoute_after_qr (groupName : String) (st : SessionState)
    (pre post : List WAEvent) (p : String)
    (hpost : ∀ q, WAEvent.qr q ∉ post) :
    (processEvents groupName st (pre ++ WAEvent.qr p :: post)).latestQR
        = some (toDataURL p) ∧
    qrRoute (processEvents groupName st (pre ++ WAEvent.qr p :: post))
        = QrResp.htmlPage (toDataURL p) := by
  have hsplit : processEvents groupName st (pre ++ WAEvent.qr p :: post)
      = processEvents groupName
          ((handleEvent groupName (processEvents groupName st pre) (WAEvent.qr p)).1)
          post := by
    unfold processEvents
    rw [List.foldl_append]
    rfl
  have hfinal : (processEvents groupName st (pre ++ WAEvent.qr p :: post)).latestQR
      = some (toDataURL p) := by
    rw [hsplit, latestQR_preserved_no_qr groupName post _ hpost]
    rfl
  refine ⟨hfinal, ?_⟩
  have htr : jsTruthy (some (toDataURL p)) = true := by
    simp [jsTruthy, toDataURL_ne_empty p]
  unfold qrRoute
  rw [hfinal, htr]
  simp

/-- Witness for C10: a `qr` event followed by a disconnect, an auth failure
and a groupless `ready` still leaves the rendered QR cached and served. -/
theorem qrRoute_after_qr_witness :
    (processEvents "WEB CUNGS" initialState
        ([] ++ WAEvent.qr "PAYLOAD" ::
          [WAEvent.disconnected "NAV", WAEvent.authFailure "AF",
           WAEvent.ready (Except.ok [])])).latestQR
        = some (toDataURL "PAYLOAD") ∧
    qrRoute (processEvents "WEB CUNGS" initialState
        ([] ++ WAEvent.qr "PAYLOAD" ::
          [WAEvent.disconnected "NAV", WAEvent.authFailure "AF",
           WAEvent.ready (Except.ok [])]))
        = QrResp.htmlPage (toDataURL "PAYLOAD") :=
  qrRoute_after_qr "WEB CUNGS" initialState []
    [WAEvent.disconnected "NAV", WAEvent.authFailure "AF",
     WAEvent.ready (Except.ok [])] "PAYLOAD"
    (by intro q; simp)

/-! ## Incoming-message handler theorems -/

/-- C3: when the incoming-message filter passes and an order id is
extracted, the handler posts to the API exactly once whatever the outcome
(no retry); on POST failure no confirmation is sent — the failure is only
logged and the (total) handler returns normally; on success exactly one
confirmation is sent, addressed to the originating chat and containing the
order id. -/
theorem orderNotifier_spec (groupName apiEndpoint : String) (msg : Msg)
    (chat : ChatObj) (oid : String) (postOk : Bool)
    (hme : msg.fromMe = false) (hgrp : chat.isGroup = true)
    (hname : chat.name = groupName)
    (hoid : extractOrderId msg.body = some oid) :
    ((handleIncoming groupName apiEndpoint msg chat postOk).filter
        MsgEffect.isApiPost).length = 1
    ∧ (handleIncoming groupName apiEndpoint msg chat false).filter
        MsgEffect.isChatSend = []
    ∧ (handleIncoming groupName apiEndpoint msg chat true).filter
        MsgEffect.isChatSend
        = [MsgEffect.chatSend chat ("✅ Order ID " ++ oid ++ " telah diproses.")] := by
  cases postOk <;>
    simp [handleIncoming, hme, hgrp, hname, hoid, MsgEffect.isApiPost,
      MsgEffect.isChatSend, List.filter]

/-- Witness for C3: a concrete group message `"ok d/482 done"` in the
configured group. -/
theorem orderNotifier_spec_witness :
    ((handleIncoming "WEB CUNGS" defaultApiEndpoint
        ⟨false, "ok d/482 done", some "628@c.us", "grp@g.us", 100⟩
        ⟨"WEB CUNGS", "g1@g.us", true⟩ true).filter
        MsgEffect.isApiPost).length = 1
    ∧ (handleIncoming "WEB CUNGS" defaultApiEndpoint
        ⟨false, "ok d/482 done", some "628@c.us", "grp@g.us", 100⟩
        ⟨"WEB CUNGS", "g1@g.us", true⟩ false).filter
        MsgEffect.isChatSend = []
    ∧ (handleIncoming "WEB CUNGS" defaultApiEndpoint
        ⟨false, "ok d/482 done", some "628@c.us", "grp@g.us", 100⟩
        ⟨"WEB CUNGS", "g1@g.us", true⟩ true).filter
        MsgEffect.isChatSend
        = [MsgEffect.chatSend ⟨"WEB CUNGS", "g1@g.us", true⟩
            ("✅ Order ID " ++ "482" ++ " telah diproses.")] :=
  orderNotifier_spec "WEB CUNGS" defaultApiEndpoint
    ⟨false, "ok d/482 done", some "628@c.us", "grp@g.us", 100⟩
    ⟨"WEB CUNGS", "g1@g.us", true⟩ "482" true rfl rfl rfl (by decide)

/-- C9: the incoming filter produces no effects for messages authored by
the bot, from non-group chats, or from chats whose name is not exactly the
configured group name; when the filter passes, the extractor decides — no
match means no effects, and a match means the handler's first effect is the
API post carrying the extracted order id and payload. -/
theorem incomingFilter_spec (groupName apiEndpoint : String) (msg : Msg)
    (chat : ChatObj) (postOk : Bool) :
    ((msg.fromMe = true ∨ chat.isGroup = false ∨ chat.name ≠ groupName) →
        handleIncoming groupName apiEndpoint msg chat postOk = [])
    ∧ (msg.fromMe = false → chat.isGroup = true → chat.name = groupName →
        (extractOrderId msg.body = none →
            handleIncoming groupName apiEndpoint msg chat postOk = [])
        ∧ (∀ oid, extractOrderId msg.body = some oid →
            (handleIncoming groupName apiEndpoint msg chat postOk).head? =
              some (MsgEffect.apiPost apiEndpoint
                { order_id := oid, group := groupName,
                  sender := jsOrStr msg.author msg.msgFrom,
                  message := msg.body, timestamp := msg.timestamp }))) := by
  constructor
  · rintro (h | h | h)
    · simp [handleIncoming, h]
    · cases hm : msg.fromMe <;> simp [handleIncoming, hm, h]
    · have hne : (chat.name == groupName) = false := by
        simp only [beq_eq_false_iff_ne, ne_eq]
        exact h
      cases hm : msg.fromMe <;> simp [handleIncoming, hm, hne]
  · intro h1 h2 h3
    constructor
    · intro hnone
      simp [handleIncoming, h1, h2, h3, hnone]
    · intro oid hoid
      cases postOk <;> simp [handleIncoming, h1, h2, h3, hoid]

/-- Witness for C9: the match branch at a concrete in-group message. -/
theorem incomingFilter_spec_witness :
    (handleIncoming "WEB CUNGS" defaultApiEndpoint
        ⟨false, "sip D/00921 ok", none, "628@c.us", 7⟩
        ⟨"WEB CUNGS", "g1@g.us", true⟩ false).head? =
      some (MsgEffect.apiPost defaultApiEndpoint
        { order_id := "00921", group := "WEB CUNGS",
          sender := jsOrStr none "628@c.us",
          message := "sip D/00921 ok", timestamp := 7 }) :=
  ((incomingFilter_spec "WEB CUNGS" defaultApiEndpoint
      ⟨false, "sip D/00921 ok", none, "628@c.us", 7⟩
      ⟨"WEB CUNGS", "g1@g.us", true⟩ false).2 rfl rfl rfl).2
    "00921" (by decide)

/-! ## Validation lemmas -/

theorem one_le_length_iff (s : String) : 1 ≤ s.length ↔ s ≠ "" := by
  constructor
  · intro h hc
    subst hc
    simp at h
  · intro h
    by_contra hlt
    push_neg at hlt
    have h0 : s.data.length = 0 := by
      have : s.length = 0 := by omega
      exact this
    exact h (String.ext (List.length_eq_zero.mp h0))

theorem numberPatternOk_ne_empty {n : String} (h : numberPatternOk n = true) :
    n ≠ "" := by
  intro hc
  subst hc
  exact absurd h (by decide)

theorem valid_groupTitle_shape {b : SendBody} {g : String}
    (hval : msgSchemaValid b = true) (hgt : b.groupTitle = some g) :
    b.number = none ∧ 1 ≤ g.length := by
  unfold msgSchemaValid at hval
  rw [hgt, Bool.and_eq_true] at hval
  cases hn : b.number with
  | none =>
      rw [hn] at hval
      exact ⟨rfl, of_decide_eq_true hval.2⟩
  | some n =>
      rw [hn] at hval
      exact (Bool.false_ne_true hval.2).elim

theorem valid_number_shape {b : SendBody} {n : String}
    (hval : msgSchemaValid b = true) (hn : b.number = some n) :
    b.groupTitle = none ∧ numberPatternOk n = true := by
  unfold msgSchemaValid at hval
  rw [hn, Bool.and_eq_true] at hval
  cases hg : b.groupTitle with
  | none =>
      rw [hg] at hval
      exact ⟨rfl, hval.2⟩
  | some g =>
      rw [hg] at hval
      exact (Bool.false_ne_true hval.2).elim

theorem both_present_invalid {b : SendBody}
    (hn : b.number.isSome = true) (hg : b.groupTitle.isSome = true) :
    msgSchemaValid b = false := by
  obtain ⟨n, hn'⟩ := Option.isSome_iff_exists.mp hn
  obtain ⟨g, hg'⟩ := Option.isSome_iff_exists.mp hg
  unfold msgSchemaValid
  rw [hn', hg']
  simp

theorem numberPatternOk_iff_spec (n : String) :
    numberPatternOk n = true ↔ specNumberOk n := by
  unfold numberPatternOk specNumberOk
  cases hl : n.toList with
  | nil =>
      constructor
      · intro h; cases h
      · rintro ⟨ds, hne, _, h | h⟩
        · exact absurd h.symm hne
        · exact absurd h (by simp)
  | cons c rest =>
      show (if c == '+' then !rest.isEmpty && rest.all Char.isDigit
            else c.isDigit && rest.all Char.isDigit) = true ↔
          ∃ ds, ds ≠ [] ∧ (∀ x ∈ ds, x.isDigit = true) ∧
            (c :: rest = ds ∨ c :: rest = '+' :: ds)
      by_cases hc : c = '+'
      · subst hc
        rw [if_pos (show ('+' == '+') = true from rfl)]
        constructor
        · intro h
          rw [Bool.and_eq_true] at h
          refine ⟨rest, ?_, ?_, Or.inr rfl⟩
          · intro hr
            rw [hr] at h
            simp at h
          · intro x hx
            exact List.all_eq_true.mp h.2 x hx
        · rintro ⟨ds, hne, hdig, h | h⟩
          · have hplus : ('+' : Char).isDigit := hdig '+' (h ▸ List.mem_cons_self _ _)
            exact absurd hplus (by decide)
          · injection h with _ h2
            subst h2
            rw [Bool.and_eq_true]
            refine ⟨?_, List.all_eq_true.mpr fun x hx => hdig x hx⟩
            cases rest with
            | nil => exact absurd rfl hne
            | cons x xs => rfl
      · rw [if_neg (by simp [hc])]
        constructor
        · intro h
          rw [Bool.and_eq_true] at h
          refine ⟨c :: rest, by simp, ?_, Or.inl rfl⟩
          intro x hx
          rcases List.mem_cons.mp hx with hx' | hx'
          · exact hx' ▸ h.1
          · exact List.all_eq_true.mp h.2 x hx'
        · rintro ⟨ds, hne, hdig, h | h⟩
          · rw [Bool.and_eq_true]
            constructor
            · exact hdig c (h ▸ List.mem_cons_self _ _)
            · exact List.all_eq_true.mpr fun x hx =>
                hdig x (h ▸ List.mem_cons_of_mem _ hx)
          · injection h with h1 _
            exact absurd h1 hc

theorem msgSchemaValid_iff_spec (b : SendBody) :
    msgSchemaValid b = true ↔ specValidBody b := by
  unfold msgSchemaValid specValidBody
  cases hm : b.message with
  | none => simp
  | some m =>
      cases hn : b.number with
      | some n =>
          cases hg : b.groupTitle with
          | none => simp [numberPatternOk_iff_spec, one_le_length_iff]
          | some g => simp
      | none =>
          cases hg : b.groupTitle with
          | none => simp
          | some g => simp [one_le_length_iff]

/-! ## POST /send-message theorems -/

/-- C4: for every request passing validation, readiness and target
resolution, the 200 response echoing the resolved target is the first
action of the trace and the dispatch to the adapter comes after it; the
response list is identical whether the dispatch later succeeds or fails,
and a dispatch failure adds only a log entry. -/
theorem sendResponse_before_dispatch (groupName : String) (st : SessionState)
    (b : SendBody)
    (hval : msgSchemaValid b = true) (hready : st.clientReady = true)
    (hres : jsTruthy b.number = true ∨
      ((match b.groupTitle with
        | some g => lowerStr g == lowerStr groupName
        | none => false) && jsTruthy st.cachedGroupId) = true) :
    responsesOf (sendMessageRoute groupName st b true)
        = [(200, some (resolvedTarget st b))] ∧
    responsesOf (sendMessageRoute groupName st b false)
        = [(200, some (resolvedTarget st b))] ∧
    (sendMessageRoute groupName st b true).take 2
        = [SendAction.respond 200 (some (resolvedTarget st b)),
           SendAction.dispatch (resolvedTarget st b) ((b.message).getD "")] ∧
    (sendMessageRoute groupName st b false).take 2
        = [SendAction.respond 200 (some (resolvedTarget st b)),
           SendAction.dispatch (resolvedTarget st b) ((b.message).getD "")] ∧
    (sendMessageRoute groupName st b false).drop 2
        = [SendAction.logSendFail (resolvedTarget st b)] := by
  by_cases hn : jsTruthy b.number = true
  · refine ⟨?_, ?_, ?_, ?_, ?_⟩ <;>
      simp [sendMessageRoute, resolvedTarget, hval, hready, hn,
        respondThenSend, responsesOf]
  · have hn' : jsTruthy b.number = false := by
      revert hn
      cases jsTruthy b.number <;> simp
    have hcond := hres.resolve_left hn
    refine ⟨?_, ?_, ?_, ?_, ?_⟩ <;>
      simp [sendMessageRoute, resolvedTarget, hval, hready, hn', hcond,
        respondThenSend, responsesOf]

/-- Witness for C4: a ready client and `{number: "+62812345", message: "hi"}`. -/
theorem sendResponse_before_dispatch_witness :
    responsesOf (sendMessageRoute "WEB CUNGS" ⟨none, true, none, none⟩
        ⟨some "+62812345", none, some "hi"⟩ true)
        = [(200, some (resolvedTarget ⟨none, true, none, none⟩
            ⟨some "+62812345", none, some "hi"⟩))] ∧
    responsesOf (sendMessageRoute "WEB CUNGS" ⟨none, true, none, none⟩
        ⟨some "+62812345", none, some "hi"⟩ false)
        = [(200, some (resolvedTarget ⟨none, true, none, none⟩
            ⟨some "+62812345", none, some "hi"⟩))] ∧
    (sendMessageRoute "WEB CUNGS" ⟨none, true, none, none⟩
        ⟨some "+62812345", none, some "hi"⟩ true).take 2
        = [SendAction.respond 200 (some (resolvedTarget ⟨none, true, none, none⟩
            ⟨some "+62812345", none, some "hi"⟩)),
           SendAction.dispatch (resolvedTarget ⟨none, true, none, none⟩
            ⟨some "+62812345", none, some "hi"⟩) "hi"] ∧
    (sendMessageRoute "WEB CUNGS" ⟨none, true, none, none⟩
        ⟨some "+62812345", none, some "hi"⟩ false).take 2
        = [SendAction.respond 200 (some (resolvedTarget ⟨none, true, none, none⟩
            ⟨some "+62812345", none, some "hi"⟩)),
           SendAction.dispatch (resolvedTarget ⟨none, true, none, none⟩
            ⟨some "+62812345", none, some "hi"⟩) "hi"] ∧
    (sendMessageRoute "WEB CUNGS" ⟨none, true, none, none⟩
        ⟨some "+62812345", none, some "hi"⟩ false).drop 2
        = [SendAction.logSendFail (resolvedTarget ⟨none, true, none, none⟩
            ⟨some "+62812345", none, some "hi"⟩)] :=
  sendResponse_before_dispatch "WEB CUNGS" ⟨none, true, none, none⟩
    ⟨some "+62812345", none, some "hi"⟩ (by decide) rfl (Or.inl (by decide))

/-- C5: with `groupTitle` supplied (and validation and readiness passed),
the request succeeds exactly when the title equals the configured group
name case-insensitively and a group id is cached, in which case the cached
id is the target and no chat-list lookup happens; otherwise the route
answers 404. -/
theorem groupTitle_resolution (groupName : String) (st : SessionState)
    (b : SendBody) (g : String) (dOk : Bool)
    (hval : msgSchemaValid b = true) (hready : st.clientReady = true)
    (hgt : b.groupTitle = some g) :
    ((lowerStr g == lowerStr groupName && jsTruthy st.cachedGroupId) = true →
        responsesOf (sendMessageRoute groupName st b dOk)
            = [(200, some ((st.cachedGroupId).getD ""))] ∧
        SendAction.chatListLookup ∉ sendMessageRoute groupName st b dOk)
    ∧ ((lowerStr g == lowerStr groupName && jsTruthy st.cachedGroupId) = false →
        sendMessageRoute groupName st b dOk = [SendAction.respond 404 none]) := by
  obtain ⟨hnum, hg⟩ := valid_groupTitle_shape hval hgt
  have hjn : jsTruthy b.number = false := by rw [hnum]; rfl
  constructor
  · intro hcond
    constructor <;>
      cases dOk <;>
        simp [sendMessageRoute, hval, hready, hjn, hgt, hcond,
          respondThenSend, responsesOf]
  · intro hcond
    simp [sendMessageRoute, hval, hready, hjn, hgt, hcond]

/-- Witness for C5: cached id `"g1@g.us"` and title `"web cungs"` against
configured `"WEB CUNGS"` resolve to the cached id with no lookup. -/
theorem groupTitle_resolution_witness :
    responsesOf (sendMessageRoute "WEB CUNGS" ⟨none, true, none, some "g1@g.us"⟩
        ⟨none, some "web cungs", some "hi"⟩ true)
        = [(200, some "g1@g.us")] ∧
    SendAction.chatListLookup ∉ sendMessageRoute "WEB CUNGS"
        ⟨none, true, none, some "g1@g.us"⟩ ⟨none, some "web cungs", some "hi"⟩ true :=
  (groupTitle_resolution "WEB CUNGS" ⟨none, true, none, some "g1@g.us"⟩
      ⟨none, some "web cungs", some "hi"⟩ "web cungs" true (by decide) rfl rfl).1
    (by decide)

/-- C6: with a validated `number` and the client ready, the resolved target
is the number with non-digits stripped followed by the `@c.us` suffix, and
the response is 200 echoing it. -/
theorem number_resolution (groupName : String) (st : SessionState)
    (b : SendBody) (n : String) (dOk : Bool)
    (hval : msgSchemaValid b = true) (hready : st.clientReady = true)
    (hn : b.number = some n) :
    responsesOf (sendMessageRoute groupName st b dOk)
        = [(200, some (stripNonDigits n ++ "@c.us"))] ∧
    resolvedTarget st b = stripNonDigits n ++ "@c.us" := by
  obtain ⟨hgt, hpat⟩ := valid_number_shape hval hn
  have hne : n ≠ "" := numberPatternOk_ne_empty hpat
  have hjtn : jsTruthy (some n) = true := by
    simp [jsTruthy, hne]
  constructor
  · cases dOk <;>
      simp [sendMessageRoute, hval, hready, hjtn, hn, respondThenSend, responsesOf]
  · simp [resolvedTarget, hjtn, hn]

/-- Witness for C6: `"+62812345"` resolves to `"62812345@c.us"`. -/
theorem number_resolution_witness :
    responsesOf (sendMessageRoute "WEB CUNGS" ⟨none, true, none, none⟩
        ⟨some "+62812345", none, some "hi"⟩ true)
        = [(200, some (stripNonDigits "+62812345" ++ "@c.us"))] ∧
    resolvedTarget ⟨none, true, none, none⟩ ⟨some "+62812345", none, some "hi"⟩
        = stripNonDigits "+62812345" ++ "@c.us" :=
  number_resolution "WEB CUNGS" ⟨none, true, none, none⟩
    ⟨some "+62812345", none, some "hi"⟩ "+62812345" true (by decide) rfl rfl

/-- C7: the route answers 400 exactly when the body fails the schema, the
schema agrees with the spec's description (exactly one of a
`^\+?\d+$`-number or a nonempty `groupTitle`, plus a nonempty `message`),
an invalid body produces the bare 400 trace with no dispatch, and in
particular supplying both `number` and `groupTitle` yields 400. -/
theorem validation_spec (groupName : String) (st : SessionState) (b : SendBody)
    (dOk : Bool) :
    (msgSchemaValid b = true ↔ specValidBody b)
    ∧ ((400, (none : Option String)) ∈ responsesOf (sendMessageRoute groupName st b dOk)
        ↔ msgSchemaValid b = false)
    ∧ (msgSchemaValid b = false →
        sendMessageRoute groupName st b dOk = [SendAction.respond 400 none])
    ∧ (b.number.isSome = true → b.groupTitle.isSome = true →
        sendMessageRoute groupName st b dOk = [SendAction.respond 400 none]) := by
  refine ⟨msgSchemaValid_iff_spec b, ?_, ?_, ?_⟩
  · constructor
    · intro hmem
      by_cases hval : msgSchemaValid b = true
      · exfalso
        by_cases hr : st.clientReady = true
        · by_cases hn : jsTruthy b.number = true
          · cases dOk <;>
              simp [sendMessageRoute, hval, hr, hn, respondThenSend, responsesOf] at hmem
          · have hn' : jsTruthy b.number = false := by
              revert hn
              cases jsTruthy b.number <;> simp
            by_cases hcond : ((match b.groupTitle with
                | some g => lowerStr g == lowerStr groupName
                | none => false) && jsTruthy st.cachedGroupId) = true
            · cases dOk <;>
                simp [sendMessageRoute, hval, hr, hn', hcond,
                  respondThenSend, responsesOf] at hmem
            · have hcond' : ((match b.groupTitle with
                  | some g => lowerStr g == lowerStr groupName
                  | none => false) && jsTruthy st.cachedGroupId) = false := by
                revert hcond
                cases ((match b.groupTitle with
                  | some g => lowerStr g == lowerStr groupName
                  | none => false) && jsTruthy st.cachedGroupId) <;> simp
              simp [sendMessageRoute, hval, hr, hn', hcond', responsesOf] at hmem
        · have hr' : st.clientReady = false := by
            revert hr
            cases st.clientReady <;> simp
          simp [sendMessageRoute, hval, hr', responsesOf] at hmem
      · exact Bool.not_eq_true _ ▸ hval
    · intro hval
      simp [sendMessageRoute, hval, responsesOf]
  · intro hval
    simp [sendMessageRoute, hval]
  · intro hn hg
    have hval := both_present_invalid hn hg
    simp [sendMessageRoute, hval]

/-- Witness for C7: a body with both `number` and `groupTitle` is rejected
with 400 and nothing else. -/
theorem validation_spec_witness :
    sendMessageRoute "WEB CUNGS" ⟨none, true, none, none⟩
        ⟨some "1", some "G", some "hi"⟩ true
        = [SendAction.respond 400 none] :=
  (validation_spec "WEB CUNGS" ⟨none, true, none, none⟩
      ⟨some "1", some "G", some "hi"⟩ true).2.2.2 rfl rfl

/-- C8: a validated body with the client not ready gets the bare 503 trace
(no dispatch), while an invalid body gets 400 regardless of readiness —
validation runs before the readiness check. -/
theorem readiness_check_spec (groupName : String) (st : SessionState)
    (b : SendBody) (dOk : Bool) :
    (msgSchemaValid b = true → st.clientReady = false →
        sendMessageRoute groupName st b dOk = [SendAction.respond 503 none])
    ∧ (msgSchemaValid b = false →
        sendMessageRoute groupName st b dOk = [SendAction.respond 400 none]) := by
  constructor
  · intro hval hr
    simp [sendMessageRoute, hval, hr]
  · intro hval
    simp [sendMessageRoute, hval]

/-- Witness for C8: a valid number body against a non-ready client answers
503 only. -/
theorem readiness_check_spec_witness :
    sendMessageRoute "WEB CUNGS" ⟨none, false, none, none⟩
        ⟨some "1", none, some "hi"⟩ true
        = [SendAction.respond 503 none] :=
  (readiness_check_spec "WEB CUNGS" ⟨none, false, none, none⟩
      ⟨some "1", none, some "hi"⟩ true).1 (by decide) rfl

end WaService
